import Mathlib

/-!
Shallow embedding of the Aisummary client-side import pipeline
(`ImportPage`: `processSingleFile`, `handleImport`, `handleFileSelect`,
`handleDrop`) and of the Dashboard helpers (`handleToggleFavorite`,
`getContrastingTextColor`), together with proofs of the specified
properties.

External collaborators (file reads, pdf.js, mammoth, the OCR service,
`createNote`, `processNoteWithAI`, the backend `toggleFavorite`) are
modelled as per-file/per-call oracles carried by the input values; all
other logic is translated line by line from the TypeScript source.
-/

namespace Aisummary

/-! ## JavaScript string primitives -/

/-- Whitespace recognised by JavaScript `String.prototype.trim`
(restricted to the ASCII whitespace characters that can occur here). -/
def jsWhitespace (c : Char) : Bool :=
  c == ' ' || c == '\t' || c == '\n' || c == '\r' || c == '\x0b' || c == '\x0c'

/-- Drop trailing whitespace from a character list. -/
def trimRightL (l : List Char) : List Char :=
  (l.reverse.dropWhile jsWhitespace).reverse

/-- Drop leading and trailing whitespace from a character list. -/
def trimL (l : List Char) : List Char :=
  trimRightL (l.dropWhile jsWhitespace)

/-- Embedding of JavaScript `s.trim()`. -/
def jsTrim (s : String) : String := ⟨trimL s.data⟩

/-- Embedding of JavaScript `Array.prototype.join(sep)` on string arrays. -/
def joinWith (sep : String) : List String → String
  | [] => ""
  | [x] => x
  | x :: y :: xs => x ++ sep ++ joinWith sep (y :: xs)

/-- ASCII lowercasing of one character (JS `toLowerCase` restricted to
ASCII, which covers file extensions). -/
def charLower (c : Char) : Char :=
  if 'A' ≤ c ∧ c ≤ 'Z' then Char.ofNat (c.toNat + 32) else c

/-- JS `s.split('.')` on the character list: split at every dot,
yielding `[""]` for the empty string and a trailing empty segment for a
trailing dot, exactly as in JavaScript. -/
def splitOnDot : List Char → List (List Char)
  | [] => [[]]
  | c :: cs =>
    if c = '.' then [] :: splitOnDot cs
    else
      match splitOnDot cs with
      | [] => [[c]]
      | seg :: rest => (c :: seg) :: rest

/-- Embedding of JavaScript `name.split('.').pop().toLowerCase()`:
the segment after the last dot (the whole name if there is no dot),
lowercased.  Mirrors `file.name.split('.').pop()?.toLowerCase()`. -/
def getExtension (name : String) : String :=
  ⟨((splitOnDot name.data).getLastD []).map charLower⟩

/-- Characters before the last dot of the name (empty if there is no dot,
matching `substring(0, lastIndexOf('.'))` where `lastIndexOf = -1`
clamps to the empty string).  Helper for `jsTitle`. -/
def dropThroughDot : List Char → List Char
  | [] => []
  | c :: cs => if c == '.' then cs else dropThroughDot cs

/-- Embedding of
`file.name.substring(0, file.name.lastIndexOf('.')) || file.name`. -/
def jsTitle (name : String) : String :=
  let p : List Char := (dropThroughDot name.data.reverse).reverse
  if p.isEmpty then name else ⟨p⟩

/-! ## The per-file status tracker (`fileProgress`) -/

/-- The four states of `fileProgress` entries. -/
inductive Status where
  | pending
  | processing
  | completed
  | error
deriving DecidableEq, Repr

/-- One `fileProgress` entry: `{ status, message? }`. -/
structure StatusEntry where
  status : Status
  message : Option String
deriving DecidableEq, Repr

/-- The `fileProgress` map, as an insertion-ordered association list
keyed by file display name (mirroring a JS object's string keys). -/
abbrev ProgMap := List (String × StatusEntry)

/-- JS object update `{...prev, [k]: v}`: replace the value of an
existing key in place, otherwise append the key at the end. -/
def setK : ProgMap → String → StatusEntry → ProgMap
  | [], k, v => [(k, v)]
  | (k', v') :: rest, k, v =>
    if k' = k then (k', v) :: rest else (k', v') :: setK rest k v

/-- JS object read `m[k]` (as an `Option`). -/
def lookupK : ProgMap → String → Option StatusEntry
  | [], _ => none
  | (k', v') :: rest, k => if k' = k then some v' else lookupK rest k

/-- `handleFileSelect` / `handleDrop` status-map effect: build
`newFilesWithStatus` (every incoming name mapped to `{status:'pending'}`)
and merge it over the previous map with object spread. -/
def addFilesStatus (prev : ProgMap) (names : List String) : ProgMap :=
  names.foldl (fun acc n => setK acc n ⟨Status.pending, none⟩) prev

/-! ## PDF extraction (lines 129–139 of `ImportPage`)

A loaded PDF is modelled as its list of pages, each page being the list
of its text items' `str` fields.  The source loop is

```
let text = "";
for (let pageNum = 1; pageNum <= pdf.numPages; pageNum++) {
  text += contentObj.items.map(item => item.str).join(" ") + "\n";
}
content = text.trim();
```
-/

/-- The body of the page loop.  The counted `for` loop
(`pageNum = 1; pageNum <= numPages; pageNum++`) performs exactly
`numPages` iterations; `remaining` counts the iterations still to run
and `pageNum` is the current loop variable.  Accumulates the text and
the exact sequence of page numbers requested from `pdf.getPage`. -/
def pdfLoop (getPage : Nat → List String) :
    Nat → Nat → String → List Nat → String × List Nat
  | 0, _, text, visited => (text, visited)
  | remaining + 1, pageNum, text, visited =>
    pdfLoop getPage remaining (pageNum + 1)
      (text ++ joinWith " " (getPage pageNum) ++ "\n") (visited ++ [pageNum])

/-- The extracted text of a PDF: run the page loop from page 1 with an
empty accumulator and trim the result. -/
def pdfExtract (getPage : Nat → List String) (numPages : Nat) : String :=
  jsTrim (pdfLoop getPage numPages 1 "" []).1

/-- The sequence of page numbers the extractor requests, in request
order. -/
def pdfVisited (getPage : Nat → List String) (numPages : Nat) : List Nat :=
  (pdfLoop getPage numPages 1 "" []).2

/-- Modelled from the spec's wording of the PDF contract (for the
refinement comparison in C5): "for each page in order (1..N), extract
its text items and join them with spaces, then join all pages with
newlines; trim the result." -/
def pdfExtractSpec (getPage : Nat → List String) (numPages : Nat) : String :=
  jsTrim (joinWith "\n" ((List.range' 1 numPages).map (fun i => joinWith " " (getPage i))))

/-! ## Observable events

Calls to external collaborators (toasts, `createNote`,
`processNoteWithAI`, query invalidation, navigation) are recorded as an
event trace in call order. -/

inductive Event where
  | toastSuccess (msg : String)
  | toastError (msg : String)
  | toastWarn (msg : String)
  | toastInfo (msg : String)
  | createNote (title content status : String) (is_favorite is_archived : Bool)
  | aiProcess (noteId : String)
  | invalidate (queryKey : String)
  | navigate (path : String)
  | backendToggle (noteId : String) (currentIsFavorite : Bool)
deriving DecidableEq, Repr

/-! ## Queued files and their external-call oracles

A `QFile` is a queued file together with the (deterministic, per-file)
outcome of each external call the pipeline may make for it:

* `fileRead` — outcome of the extraction call of the file's branch
  (`file.text()` for txt/md, `mammoth.extractRawText` for docx, the
  `FileReader`/`performOCRWithGemini` promise for images): either the
  produced text or the message of the thrown/rejected error;
* `pdfPages` — for the pdf branch, the document produced by
  `getDocument`/`getPage`/`getTextContent` (pages as lists of text-item
  strings), or the message of the error thrown while loading;
* `createNoteRes` — behaviour of `createNote`: a thrown error's
  message, or the returned `noteData` (`none` for a null/id-less
  result, `some id` otherwise; the empty string stands for a falsy id);
* `aiRes` — behaviour of `processNoteWithAI`: `none` for normal
  return, `some msg` when it throws with message `msg`. -/

inductive CallRes (α : Type) where
  | thrown (msg : String)
  | ret (value : α)
deriving DecidableEq, Repr

structure QFile where
  name : String
  fileRead : CallRes String
  pdfPages : CallRes (List (List String))
  createNoteRes : CallRes (Option String)
  aiRes : Option String
deriving DecidableEq, Repr

/-- `err.message || 'Unknown error'` (an empty message is falsy). -/
def errMessage (m : String) : String :=
  if m = "" then "Unknown error" else m

/-- The `catch` block of `processSingleFile` (lines 208–213): toast the
failure and record `{status:'error', message: err.message || 'Unknown
error'}` for the file. -/
def catchSingle (name : String) (m : String) (prog : ProgMap) (evs : List Event) :
    ProgMap × List Event :=
  (setK prog name ⟨Status.error, some (errMessage m)⟩,
   evs ++ [Event.toastError ("Failed importing " ++ name ++ ": " ++ errMessage m)])

/-- The extraction dispatch of `processSingleFile` (lines 125–175):
`none` when the extension falls through to the unsupported branch,
otherwise the outcome of the selected extractor. -/
def extractStage (f : QFile) : Option (CallRes String) :=
  let ext := getExtension f.name
  if ext = "txt" ∨ ext = "md" then some f.fileRead
  else if ext = "pdf" then
    match f.pdfPages with
    | CallRes.thrown m => some (CallRes.thrown m)
    | CallRes.ret pages => some (CallRes.ret (pdfExtract (fun i => pages.getD (i - 1) []) pages.length))
  else if ext = "docx" then some f.fileRead
  else if ext = "png" ∨ ext = "jpg" ∨ ext = "jpeg" ∨ ext = "bmp" ∨ ext = "gif" then
    some f.fileRead
  else none

/-- Embedding of `processSingleFile` (lines 118–214).  `user` is the
`user` value captured by the handler's closure (truthiness of the
authenticated user object).  Returns the updated `fileProgress` map and
the trace of external calls made for this file.

Branches, in source order: mark `processing`; dispatch on the
extension (`extractStage`); the unsupported branch warns and records
`error`/`'Unsupported type'`; empty trimmed content warns and records
`completed`/`'No content'`; a falsy `user` throws into the catch
block; then `createNote`, the `noteData && noteData.id` truthiness
check, `processNoteWithAI`, and the success toast; every thrown error
lands in `catchSingle`. -/
def processSingleFile (user : Bool) (f : QFile) (prog : ProgMap) :
    ProgMap × List Event :=
  let title := jsTitle f.name
  let prog1 := setK prog f.name ⟨Status.processing, none⟩
  match extractStage f with
  | none =>
      (setK prog1 f.name ⟨Status.error, some "Unsupported type"⟩,
       [Event.toastWarn ("Unsupported file type: " ++ f.name ++ ". Skipped.")])
  | some (CallRes.thrown m) => catchSingle f.name m prog1 []
  | some (CallRes.ret content) =>
      if jsTrim content = "" then
        (setK prog1 f.name ⟨Status.completed, some "No content"⟩,
         [Event.toastWarn ("No content extracted from " ++ f.name ++ ". Skipped note creation.")])
      else if user = false then
        catchSingle f.name "User session expired. Please log in again." prog1 []
      else
        let evs := [Event.createNote title content "active" false false]
        match f.createNoteRes with
        | CallRes.thrown m => catchSingle f.name m prog1 evs
        | CallRes.ret (some id) =>
            if id ≠ "" then
              let evs := evs ++ [Event.aiProcess id]
              match f.aiRes with
              | none =>
                  (setK prog1 f.name ⟨Status.completed, none⟩,
                   evs ++ [Event.toastSuccess ("Successfully imported and processed: " ++ f.name)])
              | some m => catchSingle f.name m prog1 evs
            else
              catchSingle f.name "Failed to create note entry in the database." prog1 evs
        | CallRes.ret none =>
            catchSingle f.name "Failed to create note entry in the database." prog1 evs

/-- The terminal `fileProgress` entry `processSingleFile` leaves for its
file — a function of that file (and the captured `user`) alone. -/
def singleStatus (user : Bool) (f : QFile) : StatusEntry :=
  match extractStage f with
  | none => ⟨Status.error, some "Unsupported type"⟩
  | some (CallRes.thrown m) => ⟨Status.error, some (errMessage m)⟩
  | some (CallRes.ret content) =>
      if jsTrim content = "" then ⟨Status.completed, some "No content"⟩
      else if user = false then
        ⟨Status.error, some (errMessage "User session expired. Please log in again.")⟩
      else
        match f.createNoteRes with
        | CallRes.thrown m => ⟨Status.error, some (errMessage m)⟩
        | CallRes.ret (some id) =>
            if id ≠ "" then
              match f.aiRes with
              | none => ⟨Status.completed, none⟩
              | some m => ⟨Status.error, some (errMessage m)⟩
            else ⟨Status.error, some (errMessage "Failed to create note entry in the database.")⟩
        | CallRes.ret none =>
            ⟨Status.error, some (errMessage "Failed to create note entry in the database.")⟩

/-- Embedding of the `for (const file of files)` loop of `handleImport`
(lines 232–243).

Closure semantics of the source: `handleImport` is an async function
defined during a render; the identifiers `user` and `fileProgress` it
reads are the `const` bindings of that render.  `setFileProgress`
updates React's state (threaded here through `prog`), but never rebinds
the local `fileProgress`, so the loop's read
`fileProgress[file.name]?.status === 'error'` consults the snapshot
captured when the handler was created (`prog0`), and the loop's
`if (!user)` re-check consults the captured `user` value, which cannot
change during the run.  The loop therefore takes the captured `user`
and `prog0` as constants while the live map threads through. -/
def importLoop (user : Bool) (prog0 : ProgMap) :
    List QFile → ProgMap → List Event → Bool → ProgMap × List Event × Bool
  | [], prog, evs, allS => (prog, evs, allS)
  | f :: rest, prog, evs, allS =>
    if user = false then
      (prog,
       evs ++ [Event.toastError "Session expired during import. Some files may not have been processed."],
       false)
    else
      let r := processSingleFile user f prog
      let allS' :=
        if (lookupK prog0 f.name).map StatusEntry.status = some Status.error then false else allS
      importLoop user prog0 rest r.1 (evs ++ r.2) allS'

/-- Result of one `handleImport` invocation. -/
structure ImportRun where
  /-- `fileProgress` contents when the loop finished, i.e. the statuses
  the tracker (and the UI) showed at the end of the batch, before the
  final `setFileProgress({})` reset. -/
  statuses : ProgMap
  /-- trace of external calls, in call order -/
  events : List Event
  /-- `fileProgress` after the handler returns (reset to `{}` on the
  normal path, untouched on the early returns) -/
  finalProgress : ProgMap
  /-- `files` after the handler returns (reset to `[]` on the normal
  path) -/
  finalFiles : List QFile
deriving DecidableEq

/-- Embedding of `handleImport` (lines 216–265).  `user` and
`authLoading` are the values captured by the handler's closure at the
render from which it was invoked; `files` and `prog0` are the queue and
the `fileProgress` map at that moment. -/
def handleImport (user authLoading : Bool) (files : List QFile) (prog0 : ProgMap) :
    ImportRun :=
  if files.length = 0 then
    ⟨prog0, [Event.toastError "Please select files to import"], prog0, files⟩
  else if user = false ∧ authLoading = false then
    ⟨prog0,
     [Event.toastError "You are not logged in. Please log in to import files.",
      Event.navigate "/login"],
     prog0, files⟩
  else
    let r := importLoop user prog0 files prog0 [] true
    let evs := r.2.1 ++ [Event.invalidate "tags", Event.invalidate "notes"]
    let evs := evs ++
      (if r.2.2 = true ∧ 0 < files.length then
        [Event.toastSuccess ("All " ++ toString files.length ++ " selected files processed!")]
       else if 0 < files.length then
        [Event.toastInfo "File processing finished. Check notifications for details on any errors."]
       else [])
    let evs := evs ++ [if user then Event.navigate "/app" else Event.navigate "/"]
    ⟨r.1, evs, [], []⟩

/-! ## Dashboard: `handleToggleFavorite` (Dashboard.tsx lines 183–228)

The two query caches involved are `['notes']` (a list of notes) and
`['favorite-notes']` (absent — `undefined` — or a list of notes).  The
query client is an external store: `setQueryData` takes effect
immediately and `getQueryData` reads the latest value, so unlike the
React state above there is no snapshotting here. -/

/-- The note fields this handler touches: the id, the favorite flag it
flips, and a stand-in for all remaining fields (spread unchanged by
`{...note, is_favorite: …}`). -/
structure Note where
  id : String
  is_favorite : Bool
  title : String
deriving DecidableEq, Repr

/-- Result of one `handleToggleFavorite` invocation. -/
structure ToggleRun where
  /-- the `['notes']` cache at the moment `apiToggleFavorite` is awaited -/
  notesBefore : List Note
  /-- the `['favorite-notes']` cache at that moment (`none` = cache absent) -/
  favBefore : Option (List Note)
  /-- the `['notes']` cache after the handler returns -/
  notesAfter : List Note
  /-- the `['favorite-notes']` cache after the handler returns -/
  favAfter : Option (List Note)
  /-- external calls, in order -/
  events : List Event
deriving DecidableEq, Repr

/-- Embedding of `handleToggleFavorite`.  `success` is the boolean the
backend `toggleFavorite` call resolves with. -/
def handleToggleFavorite (noteId : String) (currentIsFavorite : Bool) (success : Bool)
    (notes : List Note) (fav : Option (List Note)) : ToggleRun :=
  let notes1 := notes.map (fun n =>
    if n.id = noteId then { n with is_favorite := !currentIsFavorite } else n)
  let fav1 : Option (List Note) :=
    match fav with
    | none => none
    | some old =>
      if currentIsFavorite then
        some (old.filter (fun n => n.id != noteId))
      else
        match notes1.find? (fun n => n.id == noteId) with
        | some n => some (old ++ [{ n with is_favorite := true }])
        | none => some old
  if success then
    ⟨notes1, fav1, notes1, fav1,
     [Event.backendToggle noteId currentIsFavorite,
      Event.invalidate "notes", Event.invalidate "favorite-notes",
      Event.toastSuccess
        ("Document " ++ (if currentIsFavorite then "unfavorited" else "favorited") ++ ".")]⟩
  else
    let notes2 := notes1.map (fun n =>
      if n.id = noteId then { n with is_favorite := currentIsFavorite } else n)
    let fav2 : Option (List Note) :=
      match fav1 with
      | none => none
      | some old =>
        if currentIsFavorite then
          match notes2.find? (fun n => n.id == noteId) with
          | some n => some (old ++ [{ n with is_favorite := true }])
          | none => some old
        else
          some (old.filter (fun n => n.id != noteId))
    ⟨notes1, fav1, notes2, fav2,
     [Event.backendToggle noteId currentIsFavorite,
      Event.toastError "Failed to update favorite status."]⟩

/-! ## Dashboard: `getContrastingTextColor` (Dashboard.tsx lines 40–52)

`parseInt(·, 16)` is embedded exactly (leading whitespace, optional
sign, optional `0x` prefix, longest hex-digit run, `NaN` as `none`);
it never throws, so the source's `catch` branch is unreachable.  The
floating-point luminance test `(0.299*r + 0.587*g + 0.114*b)/255 > 0.5`
is idealised as exact rational arithmetic, i.e.
`299*r + 587*g + 114*b > 127500`; a `NaN` component makes the JS
comparison false, selecting `'#FFFFFF'`. -/

/-- Value of a hexadecimal digit character, if it is one. -/
def hexDigitVal (c : Char) : Option Nat :=
  if '0' ≤ c ∧ c ≤ '9' then some (c.toNat - '0'.toNat)
  else if 'a' ≤ c ∧ c ≤ 'f' then some (c.toNat - 'a'.toNat + 10)
  else if 'A' ≤ c ∧ c ≤ 'F' then some (c.toNat - 'A'.toNat + 10)
  else none

/-- Accumulate the longest leading run of hex digits; `none` when the
run is empty (`seen = false`). -/
def hexRun : List Char → Nat → Bool → Option Nat
  | [], acc, seen => if seen then some acc else none
  | c :: cs, acc, seen =>
    match hexDigitVal c with
    | some d => hexRun cs (16 * acc + d) true
    | none => if seen then some acc else none

/-- Embedding of JavaScript `parseInt(s, 16)` (`none` = `NaN`). -/
def jsParseIntHex (s : String) : Option Int :=
  let l := s.data.dropWhile jsWhitespace
  let sl : Int × List Char :=
    match l with
    | '-' :: rest => (-1, rest)
    | '+' :: rest => (1, rest)
    | _ => (1, l)
  let l2 : List Char :=
    match sl.2 with
    | '0' :: c :: rest => if c = 'x' ∨ c = 'X' then rest else '0' :: c :: rest
    | _ => sl.2
  (hexRun l2 0 false).map (fun v => sl.1 * (v : Int))

/-- Embedding of JavaScript `s.slice(a, b)` for `0 ≤ a ≤ b`. -/
def jsSlice (s : String) (a b : Nat) : String := ⟨(s.data.drop a).take (b - a)⟩

/-- Embedding of `getContrastingTextColor`. -/
def getContrastingTextColor (hexColor : String) : String :=
  if hexColor = "" ∨ hexColor.data.length ≠ 7 ∨ hexColor.data.headD ' ' ≠ '#' then
    "#000000"
  else
    match jsParseIntHex (jsSlice hexColor 1 3), jsParseIntHex (jsSlice hexColor 3 5),
          jsParseIntHex (jsSlice hexColor 5 7) with
    | some r, some g, some b =>
        if 127500 < 299 * r + 587 * g + 114 * b then "#000000" else "#FFFFFF"
    | _, _, _ => "#FFFFFF"

/-! ## Derived definitions and sample values used by the theorems -/

/-- The external calls `processSingleFile` makes for a file; they do
not depend on the incoming status map (`processSingleFile_snd`). -/
def singleEvents (u : Bool) (f : QFile) : List Event :=
  (processSingleFile u f []).2

/-- The supported import extensions: the file input's `accept` list and
the spec's supported set. -/
def supportedExts : List String :=
  ["pdf", "txt", "doc", "docx", "md", "png", "jpg", "jpeg", "bmp", "gif"]

/-- Sample: a file with an unsupported extension. -/
def fileXyz : QFile :=
  ⟨"notes.xyz", CallRes.ret "hello", CallRes.thrown "no pdf",
   CallRes.ret (some "id0"), none⟩

/-- Sample: well-behaved text files. -/
def fileTxtA : QFile :=
  ⟨"a.txt", CallRes.ret "Alpha", CallRes.thrown "no pdf", CallRes.ret (some "idA"), none⟩

def fileTxtB : QFile :=
  ⟨"b.txt", CallRes.ret "Beta", CallRes.thrown "no pdf", CallRes.ret (some "idB"), none⟩

def fileTxtC : QFile :=
  ⟨"c.txt", CallRes.ret "Gamma", CallRes.thrown "no pdf", CallRes.ret (some "idC"), none⟩

/-- Sample: a text file whose content trims to empty. -/
def fileTxtEmpty : QFile :=
  ⟨"e.txt", CallRes.ret " \n ", CallRes.thrown "no pdf", CallRes.ret (some "idE"), none⟩

/-- Sample: a PDF whose parsing throws. -/
def filePdfBad : QFile :=
  ⟨"d.pdf", CallRes.ret "unused", CallRes.thrown "Bad PDF structure",
   CallRes.ret (some "idD"), none⟩

/-- Sample notes for the favorite-toggle theorems. -/
def noteA : Note := ⟨"a", true, "title a"⟩

def noteB : Note := ⟨"b", true, "title b"⟩

/-! ## Lemmas about the status map -/

theorem lookupK_setK_self (p : ProgMap) (k : String) (v : StatusEntry) :
    lookupK (setK p k v) k = some v := by
  induction p with
  | nil => simp [setK, lookupK]
  | cons hd tl ih =>
    obtain ⟨k', v'⟩ := hd
    by_cases h : k' = k <;> simp [setK, lookupK, h, ih]

theorem lookupK_setK_ne (p : ProgMap) (k k' : String) (v : StatusEntry)
    (h : k' ≠ k) : lookupK (setK p k v) k' = lookupK p k' := by
  have h' : k ≠ k' := Ne.symm h
  induction p with
  | nil => simp [setK, lookupK, h']
  | cons hd tl ih =>
    obtain ⟨k₀, v₀⟩ := hd
    by_cases h0 : k₀ = k
    · subst h0
      simp [setK, lookupK, h']
    · rw [show setK ((k₀, v₀) :: tl) k v = (k₀, v₀) :: setK tl k v from by
        simp [setK, h0]]
      by_cases h1 : k₀ = k' <;> simp [lookupK, h1, ih]

theorem setK_setK (p : ProgMap) (k : String) (v w : StatusEntry) :
    setK (setK p k v) k w = setK p k w := by
  induction p with
  | nil => simp [setK]
  | cons hd tl ih =>
    obtain ⟨k₀, v₀⟩ := hd
    by_cases h : k₀ = k <;> simp [setK, h, ih]

theorem mem_map_fst_setK (p : ProgMap) (k : String) (v : StatusEntry) (x : String) :
    x ∈ (setK p k v).map Prod.fst ↔ x ∈ p.map Prod.fst ∨ x = k := by
  induction p with
  | nil => simp [setK]
  | cons hd tl ih =>
    obtain ⟨k₀, v₀⟩ := hd
    by_cases h : k₀ = k
    · subst h
      simp [setK]
      tauto
    · simp [setK, h, ih]
      tauto

theorem nodup_map_fst_setK (p : ProgMap) (k : String) (v : StatusEntry)
    (h : (p.map Prod.fst).Nodup) : ((setK p k v).map Prod.fst).Nodup := by
  induction p with
  | nil => simp [setK]
  | cons hd tl ih =>
    obtain ⟨k₀, v₀⟩ := hd
    simp only [List.map_cons, List.nodup_cons] at h
    by_cases he : k₀ = k
    · subst he
      simpa [setK, List.nodup_cons] using h
    · simp only [setK, he, if_false, List.map_cons, List.nodup_cons]
      refine ⟨?_, ih h.2⟩
      rw [mem_map_fst_setK]
      rintro (hx | rfl)
      · exact h.1 hx
      · exact he rfl

theorem lookupK_addFilesStatus_not_mem (prev : ProgMap) (names : List String)
    (n : String) (hn : n ∉ names) :
    lookupK (addFilesStatus prev names) n = lookupK prev n := by
  induction names generalizing prev with
  | nil => rfl
  | cons m rest ih =>
    simp only [addFilesStatus, List.foldl_cons] at *
    rw [ih _ (fun h => hn (List.mem_cons_of_mem _ h)),
        lookupK_setK_ne _ _ _ _ (fun e => hn (by rw [e]; exact List.mem_cons_self m rest))]

theorem lookupK_addFilesStatus_mem (prev : ProgMap) (names : List String)
    (n : String) (hn : n ∈ names) :
    lookupK (addFilesStatus prev names) n = some ⟨Status.pending, none⟩ := by
  induction names generalizing prev with
  | nil => cases hn
  | cons m rest ih =>
    by_cases hr : n ∈ rest
    · simpa only [addFilesStatus, List.foldl_cons] using ih _ hr
    · have hm : n = m := by
        rcases List.mem_cons.mp hn with h | h
        · exact h
        · exact absurd h hr
      subst hm
      simp only [addFilesStatus, List.foldl_cons]
      rw [show (List.foldl (fun acc n => setK acc n ⟨Status.pending, none⟩) (setK prev n ⟨Status.pending, none⟩) rest) = addFilesStatus (setK prev n ⟨Status.pending, none⟩) rest from rfl]
      rw [lookupK_addFilesStatus_not_mem _ _ _ hr, lookupK_setK_self]

theorem nodup_addFilesStatus (prev : ProgMap) (names : List String)
    (h : (prev.map Prod.fst).Nodup) :
    ((addFilesStatus prev names).map Prod.fst).Nodup := by
  induction names generalizing prev with
  | nil => exact h
  | cons m rest ih =>
    simpa only [addFilesStatus, List.foldl_cons] using
      ih _ (nodup_map_fst_setK _ _ _ h)

/-! ## Structure lemmas for `processSingleFile` and the import loop -/

/-- The status map `processSingleFile` produces is the incoming map
with exactly the file's own entry replaced by its terminal status. -/
theorem processSingleFile_fst (u : Bool) (f : QFile) (prog : ProgMap) :
    (processSingleFile u f prog).1 = setK prog f.name (singleStatus u f) := by
  unfold processSingleFile singleStatus catchSingle
  cases extractStage f with
  | none => simp [setK_setK]
  | some r =>
    cases r with
    | thrown m => simp [setK_setK]
    | ret c =>
      by_cases hc : jsTrim c = ""
      · simp [hc, setK_setK]
      · cases u with
        | false => simp [hc, setK_setK]
        | true =>
          cases hcr : f.createNoteRes with
          | thrown m => simp [hc, hcr, setK_setK]
          | ret idOpt =>
            cases idOpt with
            | none => simp [hc, hcr, setK_setK]
            | some id =>
              by_cases hid : id = ""
              · simp [hc, hcr, hid, setK_setK]
              · cases hai : f.aiRes <;> simp [hc, hcr, hid, hai, setK_setK]

/-- The external calls `processSingleFile` makes do not depend on the
incoming status map. -/
theorem processSingleFile_snd (u : Bool) (f : QFile) (prog : ProgMap) :
    (processSingleFile u f prog).2 = singleEvents u f := by
  unfold singleEvents processSingleFile catchSingle
  cases extractStage f with
  | none => simp
  | some r =>
    cases r with
    | thrown m => simp
    | ret c =>
      by_cases hc : jsTrim c = ""
      · simp [hc]
      · cases u with
        | false => simp [hc]
        | true =>
          cases hcr : f.createNoteRes with
          | thrown m => simp [hc, hcr]
          | ret idOpt =>
            cases idOpt with
            | none => simp [hc, hcr]
            | some id =>
              by_cases hid : id = ""
              · simp [hc, hcr, hid]
              · cases hai : f.aiRes <;> simp [hc, hcr, hid, hai]

/-- Every file's recorded outcome is terminal. -/
theorem singleStatus_terminal (u : Bool) (f : QFile) :
    (singleStatus u f).status = Status.completed ∨
      (singleStatus u f).status = Status.error := by
  unfold singleStatus
  cases extractStage f with
  | none => simp
  | some r =>
    cases r with
    | thrown m => simp
    | ret c =>
      by_cases hc : jsTrim c = ""
      · simp [hc]
      · cases u with
        | false => simp [hc]
        | true =>
          cases hcr : f.createNoteRes with
          | thrown m => simp [hc]
          | ret idOpt =>
            cases idOpt with
            | none => simp [hc]
            | some id =>
              by_cases hid : id = ""
              · simp [hc, hid]
              · cases hai : f.aiRes <;> simp [hc, hid, hai]

/-- With the captured `user` truthy, the loop's final status map is the
left fold of the per-file terminal statuses over the queue. -/
theorem importLoop_fst (prog0 : ProgMap) (fs : List QFile) (prog : ProgMap)
    (evs : List Event) (allS : Bool) :
    (importLoop true prog0 fs prog evs allS).1 =
      fs.foldl (fun p f => setK p f.name (singleStatus true f)) prog := by
  induction fs generalizing prog evs allS with
  | nil => simp [importLoop]
  | cons f rest ih => simp [importLoop, processSingleFile_fst, ih]

/-- With the captured `user` truthy, the loop's event trace is the
concatenation of the per-file traces, in queue order. -/
theorem importLoop_events (prog0 : ProgMap) (fs : List QFile) (prog : ProgMap)
    (evs : List Event) (allS : Bool) :
    (importLoop true prog0 fs prog evs allS).2.1 =
      evs ++ (fs.map (singleEvents true)).flatten := by
  induction fs generalizing prog evs allS with
  | nil => simp [importLoop]
  | cons f rest ih => simp [importLoop, processSingleFile_snd, ih]

/-- Folding the statuses of files none of which is named `n` leaves the
entry of `n` unchanged. -/
theorem lookupK_statusFold_not_mem (fs : List QFile) (p : ProgMap) (n : String)
    (h : ∀ f ∈ fs, f.name ≠ n) :
    lookupK (fs.foldl (fun p f => setK p f.name (singleStatus true f)) p) n =
      lookupK p n := by
  induction fs generalizing p with
  | nil => rfl
  | cons f rest ih =>
    simp only [List.foldl_cons]
    rw [ih _ (fun g hg => h g (List.mem_cons_of_mem _ hg)),
        lookupK_setK_ne _ _ _ _ (Ne.symm (h f (List.mem_cons_self f rest)))]

/-- With pairwise-distinct display names, each file's entry after the
fold is its own terminal status. -/
theorem lookupK_statusFold_mem (fs : List QFile) (p : ProgMap)
    (hnodup : (fs.map QFile.name).Nodup) (f : QFile) (hf : f ∈ fs) :
    lookupK (fs.foldl (fun p f => setK p f.name (singleStatus true f)) p) f.name =
      some (singleStatus true f) := by
  induction fs generalizing p with
  | nil => cases hf
  | cons g rest ih =>
    simp only [List.map_cons, List.nodup_cons] at hnodup
    rcases List.mem_cons.mp hf with rfl | hf
    · simp only [List.foldl_cons]
      rw [lookupK_statusFold_not_mem rest _ _
            (fun g' hg' e => hnodup.1 (by rw [← e]; exact List.mem_map_of_mem QFile.name hg')),
          lookupK_setK_self]
    · simpa only [List.foldl_cons] using ih _ hnodup.2 hf

/-! ## String lemmas for the PDF extractor -/

theorem trimRightL_append_newline (l : List Char) :
    trimRightL (l ++ ['\n']) = trimRightL l := by
  simp [trimRightL, List.reverse_append, List.dropWhile_cons, jsWhitespace]

theorem jsTrim_append_newline (s : String) : jsTrim (s ++ "\n") = jsTrim s := by
  show (⟨trimL (s ++ "\n").data⟩ : String) = ⟨trimL s.data⟩
  rw [String.data_append]
  show (⟨trimL (s.data ++ ['\n'])⟩ : String) = ⟨trimL s.data⟩
  unfold trimL
  rw [List.dropWhile_append]
  by_cases h : (s.data.dropWhile jsWhitespace).isEmpty
  · rw [if_pos h]
    rw [List.isEmpty_iff.mp h]
    simp [List.dropWhile_cons, jsWhitespace, trimRightL]
  · rw [if_neg h, trimRightL_append_newline]

theorem pdfLoop_snd (g : Nat → List String) (rem : Nat) :
    ∀ (pn : Nat) (text : String) (vis : List Nat),
      (pdfLoop g rem pn text vis).2 = vis ++ List.range' pn rem := by
  induction rem with
  | zero => intro pn text vis; simp [pdfLoop]
  | succ n ih =>
    intro pn text vis
    simp only [pdfLoop]
    rw [ih, List.range'_succ]
    simp

theorem pdfLoop_fst (g : Nat → List String) (rem : Nat) :
    ∀ (pn : Nat) (text : String) (vis : List Nat),
      (pdfLoop g rem pn text vis).1 =
        text ++
          ((List.range' pn rem).map (fun i => joinWith " " (g i) ++ "\n")).foldr
            (· ++ ·) "" := by
  induction rem with
  | zero => intro pn text vis; simp [pdfLoop]
  | succ n ih =>
    intro pn text vis
    simp only [pdfLoop]
    rw [ih, List.range'_succ]
    simp [String.append_assoc]

theorem foldr_block_cons (x : String) (xs : List String) :
    ((x :: xs).map (fun s => s ++ "\n")).foldr (· ++ ·) "" =
      joinWith "\n" (x :: xs) ++ "\n" := by
  induction xs generalizing x with
  | nil => simp [joinWith]
  | cons y ys ih =>
    show (x ++ "\n") ++ ((y :: ys).map (fun s => s ++ "\n")).foldr (· ++ ·) "" =
      joinWith "\n" (x :: y :: ys) ++ "\n"
    rw [ih y]
    simp [joinWith, String.append_assoc]

theorem jsTrim_foldr_block (l : List String) :
    jsTrim ((l.map (fun s => s ++ "\n")).foldr (· ++ ·) "") =
      jsTrim (joinWith "\n" l) := by
  cases l with
  | nil => rfl
  | cons x xs => rw [foldr_block_cons, jsTrim_append_newline]

/-! ## `handleImport` with a truthy captured `user` and a non-empty queue -/

theorem handleImport_statuses (files : List QFile) (prog0 : ProgMap)
    (hne : files ≠ []) :
    (handleImport true false files prog0).statuses =
      files.foldl (fun p f => setK p f.name (singleStatus true f)) prog0 := by
  unfold handleImport
  rw [if_neg (by simpa using fun h => hne (List.length_eq_zero.mp h)), if_neg (by simp)]
  simp [importLoop_fst]

theorem handleImport_events_mem (files : List QFile) (prog0 : ProgMap)
    (hne : files ≠ []) (f : QFile) (hf : f ∈ files) (e : Event)
    (he : e ∈ singleEvents true f) :
    e ∈ (handleImport true false files prog0).events := by
  unfold handleImport
  rw [if_neg (by simpa using fun h => hne (List.length_eq_zero.mp h)), if_neg (by simp)]
  have hm : e ∈ (files.map (singleEvents true)).flatten :=
    List.mem_flatten.mpr ⟨singleEvents true f, List.mem_map_of_mem _ hf, he⟩
  simp [importLoop_events, hm]

/-! ## Branch characterizations of `processSingleFile` -/

theorem extractStage_eq_none_of_not_supported (f : QFile)
    (h : getExtension f.name ∉ supportedExts) : extractStage f = none := by
  simp only [supportedExts, List.mem_cons, List.not_mem_nil, or_false, not_or] at h
  obtain ⟨hpdf, htxt, hdoc, hdocx, hmd, hpng, hjpg, hjpeg, hbmp, hgif⟩ := h
  simp [extractStage, hpdf, htxt, hdocx, hmd, hpng, hjpg, hjpeg, hbmp, hgif]

theorem singleEvents_unsupported (u : Bool) (f : QFile)
    (h : extractStage f = none) :
    singleEvents u f =
      [Event.toastWarn ("Unsupported file type: " ++ f.name ++ ". Skipped.")] := by
  unfold singleEvents processSingleFile
  rw [h]

theorem singleStatus_unsupported (u : Bool) (f : QFile)
    (h : extractStage f = none) :
    singleStatus u f = ⟨Status.error, some "Unsupported type"⟩ := by
  unfold singleStatus
  rw [h]

theorem singleStatus_extract_thrown (u : Bool) (f : QFile) (m : String)
    (h : extractStage f = some (CallRes.thrown m)) :
    singleStatus u f = ⟨Status.error, some (errMessage m)⟩ := by
  unfold singleStatus
  rw [h]

theorem singleStatus_empty_content (u : Bool) (f : QFile) (c : String)
    (hext : extractStage f = some (CallRes.ret c)) (hc : jsTrim c = "") :
    singleStatus u f = ⟨Status.completed, some "No content"⟩ := by
  unfold singleStatus
  rw [hext]
  simp [hc]

theorem singleEvents_empty_content (u : Bool) (f : QFile) (c : String)
    (hext : extractStage f = some (CallRes.ret c)) (hc : jsTrim c = "") :
    singleEvents u f =
      [Event.toastWarn ("No content extracted from " ++ f.name ++ ". Skipped note creation.")] := by
  unfold singleEvents processSingleFile
  rw [hext]
  simp [hc]

/-- A `createNote` call occurs in a file's trace only when the captured
`user` was truthy and extraction produced content with non-empty trim;
its arguments are then the derived title, that content, and the default
flags. -/
theorem createNote_mem_singleEvents (u : Bool) (f : QFile)
    (t c st : String) (fav arch : Bool)
    (h : Event.createNote t c st fav arch ∈ singleEvents u f) :
    u = true ∧ t = jsTitle f.name ∧ st = "active" ∧ fav = false ∧ arch = false ∧
    extractStage f = some (CallRes.ret c) ∧ jsTrim c ≠ "" := by
  unfold singleEvents processSingleFile catchSingle at h
  cases hE : extractStage f <;> rw [hE] at h
  · simp at h
  case some r =>
    cases r with
    | thrown m => simp at h
    | ret c₀ =>
      by_cases hc : jsTrim c₀ = ""
      · simp [hc] at h
      · cases u with
        | false => simp [hc] at h
        | true =>
          cases hcr : f.createNoteRes with
          | thrown m =>
            rw [hcr] at h
            simp [hc] at h
            obtain ⟨ht, hcc, hst, hfav, harch⟩ := h
            subst hcc
            exact ⟨rfl, ht, hst, hfav, harch, rfl, hc⟩
          | ret idOpt =>
            rw [hcr] at h
            cases idOpt with
            | none =>
              simp [hc] at h
              obtain ⟨ht, hcc, hst, hfav, harch⟩ := h
              subst hcc
              exact ⟨rfl, ht, hst, hfav, harch, rfl, hc⟩
            | some id =>
              by_cases hid : id = ""
              · simp [hc, hid] at h
                obtain ⟨ht, hcc, hst, hfav, harch⟩ := h
                subst hcc
                exact ⟨rfl, ht, hst, hfav, harch, rfl, hc⟩
              · cases hai : f.aiRes <;> rw [hai] at h <;>
                  simp [hc, hid] at h <;>
                  obtain ⟨ht, hcc, hst, hfav, harch⟩ := h <;>
                  subst hcc <;>
                  exact ⟨rfl, ht, hst, hfav, harch, rfl, hc⟩

/-- With non-empty content and a thrown `createNote`, the trace is the
creation attempt followed by the failure toast. -/
theorem singleEvents_create_thrown (f : QFile) (c m : String)
    (hext : extractStage f = some (CallRes.ret c)) (hc : jsTrim c ≠ "")
    (hcr : f.createNoteRes = CallRes.thrown m) :
    singleEvents true f =
      [Event.createNote (jsTitle f.name) c "active" false false,
       Event.toastError ("Failed importing " ++ f.name ++ ": " ++ errMessage m)] := by
  unfold singleEvents processSingleFile catchSingle
  rw [hext, hcr]
  simp [hc]

/-- With non-empty content and `createNote` returning a null/id-less
result, the trace is the creation attempt followed by the
`NoteCreationFailed` toast; no AI call occurs. -/
theorem singleEvents_create_none (f : QFile) (c : String)
    (hext : extractStage f = some (CallRes.ret c)) (hc : jsTrim c ≠ "")
    (hcr : f.createNoteRes = CallRes.ret none) :
    singleEvents true f =
      [Event.createNote (jsTitle f.name) c "active" false false,
       Event.toastError ("Failed importing " ++ f.name ++ ": " ++
         "Failed to create note entry in the database.")] := by
  unfold singleEvents processSingleFile catchSingle
  rw [hext, hcr]
  simp [hc, errMessage]

/-- Same as `singleEvents_create_none` for a falsy (empty-string) id. -/
theorem singleEvents_create_emptyId (f : QFile) (c : String)
    (hext : extractStage f = some (CallRes.ret c)) (hc : jsTrim c ≠ "")
    (hcr : f.createNoteRes = CallRes.ret (some "")) :
    singleEvents true f =
      [Event.createNote (jsTitle f.name) c "active" false false,
       Event.toastError ("Failed importing " ++ f.name ++ ": " ++
         "Failed to create note entry in the database.")] := by
  unfold singleEvents processSingleFile catchSingle
  rw [hext, hcr]
  simp [hc, errMessage]

/-- With non-empty content and a truthy returned id, the trace is the
creation attempt, then the AI call with exactly that id, then the
outcome toast. -/
theorem singleEvents_ai (f : QFile) (c id : String)
    (hext : extractStage f = some (CallRes.ret c)) (hc : jsTrim c ≠ "")
    (hcr : f.createNoteRes = CallRes.ret (some id)) (hid : id ≠ "") :
    singleEvents true f =
      Event.createNote (jsTitle f.name) c "active" false false ::
      Event.aiProcess id ::
      (match f.aiRes with
       | none => [Event.toastSuccess ("Successfully imported and processed: " ++ f.name)]
       | some m => [Event.toastError ("Failed importing " ++ f.name ++ ": " ++ errMessage m)]) := by
  unfold singleEvents processSingleFile catchSingle
  rw [hext, hcr]
  cases f.aiRes <;> simp [hc, hid]

/-- With non-empty content and no valid id from `createNote`, the file's
terminal status is the `NoteCreationFailed` error. -/
theorem singleStatus_create_invalid (f : QFile) (c : String)
    (hext : extractStage f = some (CallRes.ret c)) (hc : jsTrim c ≠ "")
    (hcr : f.createNoteRes = CallRes.ret none ∨ f.createNoteRes = CallRes.ret (some "")) :
    singleStatus true f =
      ⟨Status.error, some "Failed to create note entry in the database."⟩ := by
  unfold singleStatus
  rw [hext]
  rcases hcr with hcr | hcr <;> rw [hcr] <;> simp [hc, errMessage]

/-! ## The claims -/

/-- C1: per-file failure isolation.  For a batch processed with a valid
session whose file `k` throws during extraction (message `m ≠ ""`), the
final tracker records, for every queued file, exactly that file's own
terminal outcome (`singleStatus`, a function of the file alone — so
every other file's outcome is independent of file `k`'s failure); file
`k`'s entry is `error` with the failure's message; and every recorded
outcome is terminal (`completed` or `error`). -/
theorem C1_per_file_failure_isolation
    (files : List QFile) (prog0 : ProgMap) (k : Fin files.length)
    (hnodup : (files.map QFile.name).Nodup)
    (m : String) (hm : m ≠ "")
    (hthrow : extractStage (files.get k) = some (CallRes.thrown m)) :
    (∀ f ∈ files,
        lookupK (handleImport true false files prog0).statuses f.name =
          some (singleStatus true f)) ∧
    lookupK (handleImport true false files prog0).statuses (files.get k).name =
      some ⟨Status.error, some m⟩ ∧
    (∀ f ∈ files,
        (singleStatus true f).status = Status.completed ∨
          (singleStatus true f).status = Status.error) := by
  have hne : files ≠ [] := by
    intro h
    subst h
    exact absurd k.2 (by simp)
  have h1 : ∀ f ∈ files,
      lookupK (handleImport true false files prog0).statuses f.name =
        some (singleStatus true f) := by
    intro f hf
    rw [handleImport_statuses _ _ hne]
    exact lookupK_statusFold_mem _ _ hnodup f hf
  refine ⟨h1, ?_, fun f _ => singleStatus_terminal true f⟩
  rw [h1 _ (files.get_mem k.1 k.2), singleStatus_extract_thrown true _ m hthrow]
  simp [errMessage, hm]

/-- Witness for C1 at a concrete batch: a two-file queue whose first
file (a PDF) throws `"Bad PDF structure"` during extraction. -/
theorem C1_per_file_failure_isolation_witness :
    (([filePdfBad, fileTxtA].map QFile.name).Nodup ∧
      "Bad PDF structure" ≠ "" ∧
      extractStage ([filePdfBad, fileTxtA].get ⟨0, by decide⟩) =
        some (CallRes.thrown "Bad PDF structure")) ∧
    ((∀ f ∈ [filePdfBad, fileTxtA],
        lookupK (handleImport true false [filePdfBad, fileTxtA] []).statuses f.name =
          some (singleStatus true f)) ∧
      lookupK (handleImport true false [filePdfBad, fileTxtA] []).statuses
          ([filePdfBad, fileTxtA].get ⟨0, by decide⟩).name =
        some ⟨Status.error, some "Bad PDF structure"⟩ ∧
      (∀ f ∈ [filePdfBad, fileTxtA],
          (singleStatus true f).status = Status.completed ∨
            (singleStatus true f).status = Status.error)) :=
  ⟨⟨by decide, by decide, by decide⟩,
   C1_per_file_failure_isolation [filePdfBad, fileTxtA] [] ⟨0, by decide⟩
     (by decide) "Bad PDF structure" (by decide) (by decide)⟩

/-- C2 (code-bug exhibit): mid-batch session loss cannot stop the
batch.  The only session-dependent inputs of a `handleImport`
invocation are the closure-captured `user` and `authLoading` values
from the render that created the handler; the loop's `if (!user)`
re-check and the final `if (user)` navigation read that same captured
constant, so a session that becomes absent after the batch starts is
invisible to the run.  Concretely: with the session valid at batch
start, a three-file batch processes files 2 and 3 to `completed`
(they do not remain `pending`, whatever happens to the session), and
the user is navigated to the dashboard `/app`, not to `/login` or
`/`. -/
theorem C2_session_loss_not_detected :
    lookupK (handleImport true false [fileTxtA, fileTxtB, fileTxtC]
        (addFilesStatus [] ["a.txt", "b.txt", "c.txt"])).statuses "a.txt" =
      some ⟨Status.completed, none⟩ ∧
    lookupK (handleImport true false [fileTxtA, fileTxtB, fileTxtC]
        (addFilesStatus [] ["a.txt", "b.txt", "c.txt"])).statuses "b.txt" =
      some ⟨Status.completed, none⟩ ∧
    lookupK (handleImport true false [fileTxtA, fileTxtB, fileTxtC]
        (addFilesStatus [] ["a.txt", "b.txt", "c.txt"])).statuses "c.txt" =
      some ⟨Status.completed, none⟩ ∧
    Event.navigate "/app" ∈ (handleImport true false [fileTxtA, fileTxtB, fileTxtC]
        (addFilesStatus [] ["a.txt", "b.txt", "c.txt"])).events ∧
    Event.navigate "/login" ∉ (handleImport true false [fileTxtA, fileTxtB, fileTxtC]
        (addFilesStatus [] ["a.txt", "b.txt", "c.txt"])).events ∧
    Event.navigate "/" ∉ (handleImport true false [fileTxtA, fileTxtB, fileTxtC]
        (addFilesStatus [] ["a.txt", "b.txt", "c.txt"])).events := by
  decide

/-- C3 (code-bug exhibit): the final summary disagrees with the
recorded statuses.  The loop's error check
`fileProgress[file.name]?.status === 'error'` reads the
closure-captured snapshot of the status map (all entries `pending` at
click time), never the updates written during the run, so
`allSuccessful` stays `true` even when a file errors.  Concretely: a
one-file batch whose file ends `error` still emits the full-success
summary toast, and not the "finished, check for errors" one. -/
theorem C3_summary_ignores_recorded_errors :
    lookupK (handleImport true false [fileXyz]
        (addFilesStatus [] ["notes.xyz"])).statuses "notes.xyz" =
      some ⟨Status.error, some "Unsupported type"⟩ ∧
    Event.toastSuccess "All 1 selected files processed!" ∈
      (handleImport true false [fileXyz] (addFilesStatus [] ["notes.xyz"])).events ∧
    Event.toastInfo
        "File processing finished. Check notifications for details on any errors." ∉
      (handleImport true false [fileXyz] (addFilesStatus [] ["notes.xyz"])).events := by
  decide

/-- C4 counterexample: the unsupported-type entry's message is
`'Unsupported type'` (capital U), not the claim's `"unsupported
type"`. -/
theorem C4_counterexample :
    lookupK (processSingleFile true fileXyz
        (addFilesStatus [] ["notes.xyz"])).1 "notes.xyz" =
      some ⟨Status.error, some "Unsupported type"⟩ ∧
    some "Unsupported type" ≠ some "unsupported type" := by
  decide

/-- C4 (amended): for every queued file whose lowercased extension is
outside the supported set, no extractor is selected
(`extractStage = none`), the file's only external call is the warning
toast (so no note creation and no AI call), that warning appears in the
batch trace, the file's status ends `error` with message
`'Unsupported type'`, and the batch continues: every queued file still
receives its own terminal outcome. -/
theorem C4_unsupported_type
    (files : List QFile) (prog0 : ProgMap) (k : Fin files.length)
    (hnodup : (files.map QFile.name).Nodup)
    (hext : getExtension (files.get k).name ∉ supportedExts) :
    extractStage (files.get k) = none ∧
    singleEvents true (files.get k) =
      [Event.toastWarn ("Unsupported file type: " ++ (files.get k).name ++ ". Skipped.")] ∧
    Event.toastWarn ("Unsupported file type: " ++ (files.get k).name ++ ". Skipped.") ∈
      (handleImport true false files prog0).events ∧
    lookupK (handleImport true false files prog0).statuses (files.get k).name =
      some ⟨Status.error, some "Unsupported type"⟩ ∧
    (∀ f ∈ files,
        lookupK (handleImport true false files prog0).statuses f.name =
          some (singleStatus true f)) := by
  have hne : files ≠ [] := by
    intro h
    subst h
    exact absurd k.2 (by simp)
  have hnone : extractStage (files.get k) = none :=
    extractStage_eq_none_of_not_supported _ hext
  have hev := singleEvents_unsupported true _ hnone
  have h1 : ∀ f ∈ files,
      lookupK (handleImport true false files prog0).statuses f.name =
        some (singleStatus true f) := by
    intro f hf
    rw [handleImport_statuses _ _ hne]
    exact lookupK_statusFold_mem _ _ hnodup f hf
  refine ⟨hnone, hev, ?_, ?_, h1⟩
  · exact handleImport_events_mem files prog0 hne _ (files.get_mem k.1 k.2) _
      (hev ▸ List.mem_cons_self _ _)
  · rw [h1 _ (files.get_mem k.1 k.2), singleStatus_unsupported true _ hnone]

/-- Witness for C4 at a concrete batch: `notes.xyz` in a two-file
queue. -/
theorem C4_unsupported_type_witness :
    (([fileXyz, fileTxtA].map QFile.name).Nodup ∧
      getExtension (([fileXyz, fileTxtA].get ⟨0, by decide⟩)).name ∉ supportedExts) ∧
    (extractStage ([fileXyz, fileTxtA].get ⟨0, by decide⟩) = none ∧
      singleEvents true ([fileXyz, fileTxtA].get ⟨0, by decide⟩) =
        [Event.toastWarn ("Unsupported file type: " ++
          ([fileXyz, fileTxtA].get ⟨0, by decide⟩).name ++ ". Skipped.")] ∧
      Event.toastWarn ("Unsupported file type: " ++
          ([fileXyz, fileTxtA].get ⟨0, by decide⟩).name ++ ". Skipped.") ∈
        (handleImport true false [fileXyz, fileTxtA] []).events ∧
      lookupK (handleImport true false [fileXyz, fileTxtA] []).statuses
          ([fileXyz, fileTxtA].get ⟨0, by decide⟩).name =
        some ⟨Status.error, some "Unsupported type"⟩ ∧
      (∀ f ∈ [fileXyz, fileTxtA],
          lookupK (handleImport true false [fileXyz, fileTxtA] []).statuses f.name =
            some (singleStatus true f))) :=
  ⟨⟨by decide, by decide⟩,
   C4_unsupported_type [fileXyz, fileTxtA] [] ⟨0, by decide⟩ (by decide) (by decide)⟩

/-- C5: the PDF extractor visits exactly the pages 1..N, in strictly
ascending order with none skipped, repeated or reordered, and its
result equals the spec's formula: per-page text items joined with
single spaces, pages joined with newlines, the whole trimmed
(`pdfExtractSpec`). -/
theorem C5_pdf_extraction (getPage : Nat → List String) (numPages : Nat) :
    pdfVisited getPage numPages = List.range' 1 numPages ∧
    (pdfVisited getPage numPages).Pairwise (· < ·) ∧
    (∀ k, k ∈ pdfVisited getPage numPages ↔ 1 ≤ k ∧ k < 1 + numPages) ∧
    (pdfVisited getPage numPages).Nodup ∧
    pdfExtract getPage numPages = pdfExtractSpec getPage numPages := by
  have hv : pdfVisited getPage numPages = List.range' 1 numPages := by
    unfold pdfVisited
    rw [pdfLoop_snd]
    simp
  refine ⟨hv, ?_, ?_, ?_, ?_⟩
  · rw [hv]
    exact List.pairwise_lt_range' 1 numPages
  · intro k
    rw [hv]
    simp
  · rw [hv]
    exact List.nodup_range' 1 numPages
  · unfold pdfExtract pdfExtractSpec
    rw [pdfLoop_fst, String.empty_append]
    have h := jsTrim_foldr_block
      ((List.range' 1 numPages).map (fun i => joinWith " " (getPage i)))
    rw [List.map_map] at h
    simpa [Function.comp] using h

/-- C6: Note Materializer ordering.  For a file processed with a valid
session whose extraction produced content with non-empty trim:
(1) any `processNoteWithAI` call occurs only when `createNote` returned
a truthy id, is made with exactly that id, and follows the `createNote`
call (the trace's first two events are the creation and then the AI
call); (2) if `createNote` returned no valid id, no AI call occurs and
the file is recorded as `error`; (3) every `createNote` call uses the
default flags (`status:'active'`, not favorite, not archived). -/
theorem C6_note_materializer (f : QFile) (prog : ProgMap) (c : String)
    (hext : extractStage f = some (CallRes.ret c)) (hc : jsTrim c ≠ "") :
    (∀ id, Event.aiProcess id ∈ (processSingleFile true f prog).2 →
        f.createNoteRes = CallRes.ret (some id) ∧ id ≠ "" ∧
        (processSingleFile true f prog).2.take 2 =
          [Event.createNote (jsTitle f.name) c "active" false false,
           Event.aiProcess id]) ∧
    ((f.createNoteRes = CallRes.ret none ∨ f.createNoteRes = CallRes.ret (some "")) →
        (∀ id, Event.aiProcess id ∉ (processSingleFile true f prog).2) ∧
        lookupK (processSingleFile true f prog).1 f.name =
          some ⟨Status.error, some "Failed to create note entry in the database."⟩) ∧
    (∀ t c' st fav arch,
        Event.createNote t c' st fav arch ∈ (processSingleFile true f prog).2 →
          st = "active" ∧ fav = false ∧ arch = false ∧
          t = jsTitle f.name ∧ c' = c) := by
  rw [processSingleFile_snd, processSingleFile_fst]
  refine ⟨?_, ?_, ?_⟩
  · intro id hid
    cases hcr : f.createNoteRes with
    | thrown m =>
      rw [singleEvents_create_thrown f c m hext hc hcr] at hid
      simp at hid
    | ret idOpt =>
      cases idOpt with
      | none =>
        rw [singleEvents_create_none f c hext hc hcr] at hid
        simp at hid
      | some id₀ =>
        by_cases hid₀ : id₀ = ""
        · subst hid₀
          rw [singleEvents_create_emptyId f c hext hc hcr] at hid
          simp at hid
        · rw [singleEvents_ai f c id₀ hext hc hcr hid₀] at hid
          have hEq : id = id₀ := by
            rcases List.mem_cons.mp hid with h | h
            · cases h
            rcases List.mem_cons.mp h with h' | h'
            · cases h'
              rfl
            · cases hA : f.aiRes <;> rw [hA] at h' <;> simp at h'
          subst hEq
          rw [singleEvents_ai f c id hext hc hcr hid₀]
          exact ⟨rfl, hid₀, rfl⟩
  · intro hcr
    constructor
    · intro id hid
      rcases hcr with hcr | hcr
      · rw [singleEvents_create_none f c hext hc hcr] at hid
        simp at hid
      · rw [singleEvents_create_emptyId f c hext hc hcr] at hid
        simp at hid
    · rw [lookupK_setK_self, singleStatus_create_invalid f c hext hc hcr]
  · intro t c' st fav arch h
    have := createNote_mem_singleEvents true f t c' st fav arch h
    refine ⟨this.2.2.1, this.2.2.2.1, this.2.2.2.2.1, this.2.1, ?_⟩
    have h6 := this.2.2.2.2.2.1
    rw [hext] at h6
    cases h6
    rfl

/-- Witness for C6 at a concrete file: `a.txt` with content `"Alpha"`,
a successful `createNote` returning `"idA"`, and a successful AI
call. -/
theorem C6_note_materializer_witness :
    (extractStage fileTxtA = some (CallRes.ret "Alpha") ∧ jsTrim "Alpha" ≠ "") ∧
    ((∀ id, Event.aiProcess id ∈ (processSingleFile true fileTxtA []).2 →
        fileTxtA.createNoteRes = CallRes.ret (some id) ∧ id ≠ "" ∧
        (processSingleFile true fileTxtA []).2.take 2 =
          [Event.createNote (jsTitle fileTxtA.name) "Alpha" "active" false false,
           Event.aiProcess id]) ∧
      ((fileTxtA.createNoteRes = CallRes.ret none ∨
          fileTxtA.createNoteRes = CallRes.ret (some "")) →
        (∀ id, Event.aiProcess id ∉ (processSingleFile true fileTxtA []).2) ∧
        lookupK (processSingleFile true fileTxtA []).1 fileTxtA.name =
          some ⟨Status.error, some "Failed to create note entry in the database."⟩) ∧
      (∀ t c' st fav arch,
          Event.createNote t c' st fav arch ∈ (processSingleFile true fileTxtA []).2 →
            st = "active" ∧ fav = false ∧ arch = false ∧
            t = jsTitle fileTxtA.name ∧ c' = "Alpha")) :=
  ⟨⟨by decide, by decide⟩,
   C6_note_materializer fileTxtA [] "Alpha" (by decide) (by decide)⟩

/-- C7 counterexample: the empty-content entry's message is
`'No content'` (capital N), not the claim's `"no content"`. -/
theorem C7_counterexample :
    lookupK (processSingleFile true fileTxtEmpty []).1 "e.txt" =
      some ⟨Status.completed, some "No content"⟩ ∧
    some "No content" ≠ some "no content" := by
  decide

/-- C7 (amended): when a selected extractor returns content whose trim
is empty, the file's status ends `completed` (not `error`) with message
`'No content'`, the file's only external call is the skip warning (in
particular no note is created); conversely, a `createNote` call happens
only for a file whose extraction produced exactly that content with
non-empty trim. -/
theorem C7_empty_content (u : Bool) (f : QFile) (prog : ProgMap) (c : String)
    (hext : extractStage f = some (CallRes.ret c)) (hc : jsTrim c = "") :
    lookupK (processSingleFile u f prog).1 f.name =
      some ⟨Status.completed, some "No content"⟩ ∧
    (processSingleFile u f prog).2 =
      [Event.toastWarn ("No content extracted from " ++ f.name ++ ". Skipped note creation.")] ∧
    (∀ (u' : Bool) (f' : QFile) (prog' : ProgMap) (t c' st : String) (fav arch : Bool),
        Event.createNote t c' st fav arch ∈ (processSingleFile u' f' prog').2 →
          extractStage f' = some (CallRes.ret c') ∧ jsTrim c' ≠ "") := by
  refine ⟨?_, ?_, ?_⟩
  · rw [processSingleFile_fst, lookupK_setK_self,
      singleStatus_empty_content u f c hext hc]
  · rw [processSingleFile_snd, singleEvents_empty_content u f c hext hc]
  · intro u' f' prog' t c' st fav arch h
    rw [processSingleFile_snd] at h
    have := createNote_mem_singleEvents u' f' t c' st fav arch h
    exact ⟨this.2.2.2.2.2.1, this.2.2.2.2.2.2⟩

/-- Witness for C7 at a concrete file: `e.txt` whose content `" \n "`
trims to empty. -/
theorem C7_empty_content_witness :
    (extractStage fileTxtEmpty = some (CallRes.ret " \n ") ∧ jsTrim " \n " = "") ∧
    (lookupK (processSingleFile true fileTxtEmpty []).1 fileTxtEmpty.name =
        some ⟨Status.completed, some "No content"⟩ ∧
      (processSingleFile true fileTxtEmpty []).2 =
        [Event.toastWarn ("No content extracted from " ++ fileTxtEmpty.name ++
          ". Skipped note creation.")] ∧
      (∀ (u' : Bool) (f' : QFile) (prog' : ProgMap) (t c' st : String) (fav arch : Bool),
          Event.createNote t c' st fav arch ∈ (processSingleFile u' f' prog').2 →
            extractStage f' = some (CallRes.ret c') ∧ jsTrim c' ≠ "")) :=
  ⟨⟨by decide, by decide⟩,
   C7_empty_content true fileTxtEmpty [] " \n " (by decide) (by decide)⟩

/-! Helper lemmas for the favorite-toggle analysis. -/

theorem filter_ne_id (noteId : String) (l : List Note)
    (h : ∀ b ∈ l, b.id ≠ noteId) :
    l.filter (fun n => n.id != noteId) = l :=
  List.filter_eq_self.mpr (fun a ha => by simpa using h a ha)

theorem filter_ne_id_middle (noteId : String) (a : Note) (l₁ l₂ : List Note)
    (ha : a.id = noteId)
    (h₁ : ∀ b ∈ l₁, b.id ≠ noteId) (h₂ : ∀ b ∈ l₂, b.id ≠ noteId) :
    (l₁ ++ a :: l₂).filter (fun n => n.id != noteId) = l₁ ++ l₂ := by
  rw [List.filter_append, filter_ne_id _ _ h₁]
  simp [List.filter_cons, ha, filter_ne_id _ _ h₂]

theorem toggle_map_restore (noteId : String) (cur : Bool) (notes : List Note)
    (hcons : ∀ n ∈ notes, n.id = noteId → n.is_favorite = cur) :
    ((notes.map (fun n => if n.id = noteId then { n with is_favorite := !cur } else n)).map
      (fun n => if n.id = noteId then { n with is_favorite := cur } else n)) = notes := by
  rw [List.map_map]
  have h : ∀ n ∈ notes,
      ((fun n : Note => if n.id = noteId then { n with is_favorite := cur } else n) ∘
        (fun n : Note => if n.id = noteId then { n with is_favorite := !cur } else n)) n =
        id n := by
    intro n hn
    by_cases hid : n.id = noteId
    · have hfavn := hcons n hn hid
      cases n
      simp_all
    · simp [Function.comp, hid]
  rw [List.map_congr_left h, List.map_id]

/-- C8 counterexample: rolling back a failed unfavorite re-appends the
note at the end of the `['favorite-notes']` cache, so the collection is
not restored to exactly its prior value (the notes cache is). -/
theorem C8_counterexample :
    (handleToggleFavorite "a" true false [noteA, noteB]
        (some [noteA, noteB])).notesAfter = [noteA, noteB] ∧
    (handleToggleFavorite "a" true false [noteA, noteB]
        (some [noteA, noteB])).favAfter = some [noteB, noteA] ∧
    some [noteB, noteA] ≠ some [noteA, noteB] := by
  decide

/-- C8 (amended): `handleToggleFavorite` flips the cached `is_favorite`
flag of the note before the backend call, and when the backend call
reports failure it restores the `['notes']` cache to exactly its prior
value and restores the `['favorite-notes']` cache up to order (the same
notes, with the rolled-back note re-appended at the end) — under the
cache-consistency hypotheses that cached flags agree with
`currentIsFavorite` and, when unfavoriting, the favorites cache holds
exactly one entry for the note, equal to its `['notes']` entry. -/
theorem C8_optimistic_toggle (noteId : String) (cur : Bool)
    (notes : List Note) (fav : Option (List Note))
    (hmem : ∃ n ∈ notes, n.id = noteId)
    (hcons : ∀ n ∈ notes, n.id = noteId → n.is_favorite = cur)
    (hfavT : ∀ l, fav = some l → cur = true →
        ∃ a l₁ l₂, l = l₁ ++ a :: l₂ ∧ a.id = noteId ∧
          (∀ b ∈ l₁, b.id ≠ noteId) ∧ (∀ b ∈ l₂, b.id ≠ noteId) ∧
          notes.find? (fun n => n.id == noteId) = some a)
    (hfavF : ∀ l, fav = some l → cur = false → ∀ b ∈ l, b.id ≠ noteId) :
    (∀ n ∈ (handleToggleFavorite noteId cur false notes fav).notesBefore,
        n.id = noteId → n.is_favorite = !cur) ∧
    (∃ n ∈ (handleToggleFavorite noteId cur false notes fav).notesBefore,
        n.id = noteId) ∧
    (handleToggleFavorite noteId cur false notes fav).notesAfter = notes ∧
    (fav = none → (handleToggleFavorite noteId cur false notes fav).favAfter = none) ∧
    (∀ l, fav = some l →
        ∃ l', (handleToggleFavorite noteId cur false notes fav).favAfter = some l' ∧
          l'.Perm l) := by
  obtain ⟨n₀, hn₀, hid₀⟩ := hmem
  have hNB : (handleToggleFavorite noteId cur false notes fav).notesBefore =
      notes.map (fun n => if n.id = noteId then { n with is_favorite := !cur } else n) := rfl
  have hNA : (handleToggleFavorite noteId cur false notes fav).notesAfter =
      (notes.map (fun n => if n.id = noteId then { n with is_favorite := !cur } else n)).map
        (fun n => if n.id = noteId then { n with is_favorite := cur } else n) := rfl
  have hRestore := toggle_map_restore noteId cur notes hcons
  refine ⟨?_, ?_, ?_, ?_, ?_⟩
  · intro n hn hid
    rw [hNB] at hn
    obtain ⟨m, hm, rfl⟩ := List.mem_map.mp hn
    by_cases h : m.id = noteId
    · simp [h]
    · rw [if_neg h] at hid ⊢
      exact absurd hid h
  · refine ⟨{ n₀ with is_favorite := !cur }, ?_, hid₀⟩
    rw [hNB]
    have himg : (fun n : Note => if n.id = noteId then { n with is_favorite := !cur } else n) n₀ =
        { n₀ with is_favorite := !cur } := by simp [hid₀]
    exact himg ▸ List.mem_map_of_mem _ hn₀
  · rw [hNA, hRestore]
  · intro hfav
    subst hfav
    rfl
  · intro l hfav
    subst hfav
    cases cur with
    | true =>
      obtain ⟨a, l₁, l₂, hl, haid, h₁, h₂, hfind⟩ := hfavT l rfl rfl
      have haMem : a ∈ notes := List.mem_of_find?_eq_some hfind
      have haFav : a.is_favorite = true := hcons a haMem haid
      have haEq : ({ a with is_favorite := true } : Note) = a := by
        cases a
        simp_all
      refine ⟨(l₁ ++ l₂) ++ [a], ?_, ?_⟩
      · simp only [handleToggleFavorite]
        rw [hRestore, hfind]
        show some (List.filter (fun n => n.id != noteId) l ++
            [{ a with is_favorite := true }]) = some ((l₁ ++ l₂) ++ [a])
        rw [haEq, hl, filter_ne_id_middle noteId a l₁ l₂ haid h₁ h₂]
      · rw [hl]
        exact (List.perm_append_singleton a (l₁ ++ l₂)).trans List.perm_middle.symm
    | false =>
      have hids := hfavF l rfl rfl
      refine ⟨l, ?_, List.Perm.refl l⟩
      cases hfind : (notes.map (fun n =>
          if n.id = noteId then { n with is_favorite := !false } else n)).find?
          (fun n => n.id == noteId) with
      | none =>
        simp only [handleToggleFavorite]
        rw [hfind]
        show some (List.filter (fun n => n.id != noteId) l) = some l
        rw [filter_ne_id _ _ hids]
      | some n₁ =>
        have hn₁id : n₁.id = noteId := by
          simpa using List.find?_some hfind
        simp only [handleToggleFavorite]
        rw [hfind]
        show some (List.filter (fun n => n.id != noteId)
            (l ++ [{ n₁ with is_favorite := true }])) = some l
        rw [List.filter_append, filter_ne_id _ _ hids]
        simp [List.filter_cons, hn₁id]

/-- Witness for C8 at a concrete failing unfavorite: two favorite
notes, toggling note `"a"` with a failing backend call. -/
theorem C8_optimistic_toggle_witness :
    (∃ n ∈ [noteA, noteB], n.id = "a") ∧
    ((∀ n ∈ (handleToggleFavorite "a" true false [noteA, noteB]
          (some [noteA, noteB])).notesBefore,
        n.id = "a" → n.is_favorite = !true) ∧
      (∃ n ∈ (handleToggleFavorite "a" true false [noteA, noteB]
          (some [noteA, noteB])).notesBefore, n.id = "a") ∧
      (handleToggleFavorite "a" true false [noteA, noteB]
          (some [noteA, noteB])).notesAfter = [noteA, noteB] ∧
      ((some [noteA, noteB] : Option (List Note)) = none →
        (handleToggleFavorite "a" true false [noteA, noteB]
          (some [noteA, noteB])).favAfter = none) ∧
      (∀ l, (some [noteA, noteB] : Option (List Note)) = some l →
          ∃ l', (handleToggleFavorite "a" true false [noteA, noteB]
            (some [noteA, noteB])).favAfter = some l' ∧ l'.Perm l)) :=
  ⟨by decide,
   C8_optimistic_toggle "a" true [noteA, noteB] (some [noteA, noteB])
     (by decide) (by decide)
     (fun l hl _ => by
       cases hl
       exact ⟨noteA, [], [noteB], rfl, rfl, by decide, by decide, by decide⟩)
     (fun l hl h => absurd h (by decide))⟩

/-- C9: same-name status collision.  Adding files to the queue keeps at
most one status entry per display name (key uniqueness is preserved),
every added name's entry is silently replaced by the most recently
added file's fresh `{status:'pending'}` entry — whatever entry the name
had before — and names not among the added ones keep their entries. -/
theorem C9_same_name_overwrite (prev : ProgMap) (names : List String)
    (hprev : (prev.map Prod.fst).Nodup) :
    ((addFilesStatus prev names).map Prod.fst).Nodup ∧
    (∀ n ∈ names,
        lookupK (addFilesStatus prev names) n = some ⟨Status.pending, none⟩) ∧
    (∀ n, n ∉ names → lookupK (addFilesStatus prev names) n = lookupK prev n) :=
  ⟨nodup_addFilesStatus prev names hprev,
   fun n hn => lookupK_addFilesStatus_mem prev names n hn,
   fun n hn => lookupK_addFilesStatus_not_mem prev names n hn⟩

/-- Witness for C9: a map already holding an `error` entry for
`"a.txt"`; re-adding a file named `"a.txt"` overwrites it with
`pending`. -/
theorem C9_same_name_overwrite_witness :
    (([("a.txt", (⟨Status.error, some "boom"⟩ : StatusEntry))].map Prod.fst).Nodup) ∧
    (((addFilesStatus [("a.txt", ⟨Status.error, some "boom"⟩)] ["a.txt"]).map
        Prod.fst).Nodup ∧
      (∀ n ∈ ["a.txt"],
          lookupK (addFilesStatus [("a.txt", ⟨Status.error, some "boom"⟩)] ["a.txt"]) n =
            some ⟨Status.pending, none⟩) ∧
      (∀ n, n ∉ ["a.txt"] →
          lookupK (addFilesStatus [("a.txt", ⟨Status.error, some "boom"⟩)] ["a.txt"]) n =
            lookupK [("a.txt", ⟨Status.error, some "boom"⟩)] n)) :=
  ⟨by decide,
   C9_same_name_overwrite [("a.txt", ⟨Status.error, some "boom"⟩)] ["a.txt"] (by decide)⟩

/-- C10: `getContrastingTextColor` is total and two-valued — for every
input it returns `'#000000'` or `'#FFFFFF'` (the embedding is a total
function, and the JS original cannot throw: `parseInt` never throws, so
the `catch` is unreachable), and every input that is not a 7-character
string starting with `'#'` yields `'#000000'`. -/
theorem C10_contrast_total (s : String) :
    (getContrastingTextColor s = "#000000" ∨ getContrastingTextColor s = "#FFFFFF") ∧
    (¬(s.data.length = 7 ∧ s.data.headD ' ' = '#') →
      getContrastingTextColor s = "#000000") := by
  unfold getContrastingTextColor
  by_cases h : s = "" ∨ s.data.length ≠ 7 ∨ s.data.headD ' ' ≠ '#'
  · rw [if_pos h]
    exact ⟨Or.inl rfl, fun _ => rfl⟩
  · rw [if_neg h]
    push_neg at h
    refine ⟨?_, fun hbad => absurd ⟨h.2.1, h.2.2⟩ hbad⟩
    cases h1 : jsParseIntHex (jsSlice s 1 3) with
    | none => exact Or.inr rfl
    | some r =>
      cases h2 : jsParseIntHex (jsSlice s 3 5) with
      | none => exact Or.inr rfl
      | some g =>
        cases h3 : jsParseIntHex (jsSlice s 5 7) with
        | none => exact Or.inr rfl
        | some b =>
          show (if (127500 : Int) < 299 * r + 587 * g + 114 * b
              then "#000000" else "#FFFFFF") = "#000000" ∨
            (if (127500 : Int) < 299 * r + 587 * g + 114 * b
              then "#000000" else "#FFFFFF") = "#FFFFFF"
          by_cases hlt : (127500 : Int) < 299 * r + 587 * g + 114 * b
          · rw [if_pos hlt]
            exact Or.inl rfl
          · rw [if_neg hlt]
            exact Or.inr rfl

/-- Witness for C10: the malformed input `"red"` yields `'#000000'`. -/
theorem C10_contrast_total_witness :
    ¬(("red" : String).data.length = 7 ∧ ("red" : String).data.headD ' ' = '#') ∧
    getContrastingTextColor "red" = "#000000" :=
  ⟨by decide, (C10_contrast_total "red").2 (by decide)⟩

end Aisummary
